import Mathlib

/-!
Shallow embedding of the admission-control (rate limiting) subsystem of the
repository, from `pkg/ratelimit/ratelimit.go` (fixed-window variant) and
`pkg/ratelimit/config.go`.

Modelling conventions:
* Time is modelled as `Int`, in tenths of a second (deciseconds).  Go's
  `time.Duration` is an integer nanosecond count; all durations appearing in
  the claims are whole tenths of a second, at which granularity the
  `%.1f`-formatting of `Duration.Seconds()` is exact, so no floating point is
  needed.  `60 * time.Second` is `600`, `10 * time.Minute` is `6000`.
* Go maps (`map[string]V`) are modelled as association lists
  `List (String × V)` with the lookup/update functions `lookupKV` / `setKV`
  below; Go map keys are unique, which corresponds to the `NodupKeys`
  predicate used where it matters.
* The package-level mutable variable `windowSize` (ratelimit.go line 15) is
  modelled as explicit state `PkgState` threaded through the functions that
  read or write it.
* A Go function returning no error is modelled with error component `none`
  (`Option String` stands for Go's `error`, `none` = `nil`).
-/

/-- Lookup in an association list, as Go map indexing `m[k]` with `ok`. -/
def lookupKV {α : Type} : List (String × α) → String → Option α
  | [], _ => none
  | (k1, v) :: rest, k => if k1 = k then some v else lookupKV rest k

/-- Update/insert in an association list, as Go map assignment `m[k] = v`. -/
def setKV {α : Type} : List (String × α) → String → α → List (String × α)
  | [], k, v => [(k, v)]
  | (k1, v1) :: rest, k, v =>
    if k1 = k then (k, v) :: rest else (k1, v1) :: setKV rest k v

/-- Keys of an association list are pairwise distinct (Go map invariant). -/
def NodupKeys {α : Type} (l : List (String × α)) : Prop :=
  (l.map Prod.fst).Nodup

instance {α : Type} (l : List (String × α)) : Decidable (NodupKeys l) := by
  unfold NodupKeys; infer_instance

/-- `windowCounter` (ratelimit.go lines 29–33): requests in the current
fixed window.  The `sync.Mutex` field is concurrency plumbing with no
sequential content and is not modelled. -/
structure WindowCounter where
  count : Int
  windowStart : Int
deriving DecidableEq

/-- Inner level of `requestCounts`: tool name → counter. -/
abbrev ToolCounters := List (String × WindowCounter)

/-- `requestCounts` (ratelimit.go line 24): sessionID → tool → counter. -/
abbrev RequestCounts := List (String × ToolCounters)

/-- The package-level mutable variable `windowSize` (ratelimit.go lines
13–16), modelled as explicit package state. -/
structure PkgState where
  windowSize : Int
deriving DecidableEq

/-- Initial value of the package variable: `60 * time.Second` (in tenths of
a second). -/
def pkg0 : PkgState := { windowSize := 600 }

/-- `cleanupInterval = 10 * time.Minute` (ratelimit.go line 14), in tenths
of a second.  Nothing in the package mutates it, so it is a constant. -/
def cleanupInterval : Int := 6000

/-- `defaultLimit = 60` (config.go line 7). -/
def defaultLimit : Int := 60

/-- `RateLimiter` (ratelimit.go lines 20–26).  The `sync.RWMutex` is
concurrency plumbing and is not modelled; `cleanupTicker` is modelled as
`Option Bool` (`some b`: a ticker exists, `b` = still running; `none`: the
nil pointer). -/
structure RateLimiter where
  limits : List (String × Int)
  defaultLimit : Int
  requestCounts : RequestCounts
  cleanupTicker : Option Bool
deriving DecidableEq

/-- `RateLimiterOption` (ratelimit.go line 36).  Options run against the
limiter under construction and may also touch package-level state
(`WithTimeWindow` writes the package variable `windowSize`). -/
abbrev RateLimiterOption := RateLimiter × PkgState → RateLimiter × PkgState

/-- `WithToolLimit` (ratelimit.go lines 39–43): stores the given value
unconditionally — no validation. -/
def WithToolLimit (toolName : String) (requestsPerMinute : Int) : RateLimiterOption :=
  fun p => ({ p.1 with limits := setKV p.1.limits toolName requestsPerMinute }, p.2)

/-- `WithDefaultLimit` (ratelimit.go lines 46–50): stores the given value
unconditionally — no validation. -/
def WithDefaultLimit (requestsPerMinute : Int) : RateLimiterOption :=
  fun p => ({ p.1 with defaultLimit := requestsPerMinute }, p.2)

/-- `WithTimeWindow` (ratelimit.go lines 53–57): ignores the receiver
limiter (`func(_ *RateLimiter)`) and assigns the package-level variable
`windowSize`. -/
def WithTimeWindow (window : Int) : RateLimiterOption :=
  fun p => (p.1, { windowSize := window })

/-- `NewRateLimiter` (ratelimit.go lines 60–80): builds the zero limiter,
applies the options in order, starts the cleanup ticker.  The function has
no error return; it always succeeds. -/
def NewRateLimiter (opts : List RateLimiterOption) (ps : PkgState) :
    RateLimiter × PkgState :=
  let rl0 : RateLimiter :=
    { limits := []
      defaultLimit := defaultLimit
      requestCounts := []
      cleanupTicker := some true }
  opts.foldl (fun p opt => opt p) (rl0, ps)

/-- `cleanup` inner loop condition (ratelimit.go lines 88–95): delete a
counter iff `now.Sub(counter.windowStart) > cleanupInterval`; i.e. keep it
iff not stale.  Note the code keys eviction on `windowStart` — the
`windowCounter` struct has no last-access field. -/
def cleanupTC (now : Int) (tc : ToolCounters) : ToolCounters :=
  tc.filter (fun p => !(decide (now - p.2.windowStart > cleanupInterval)))

/-- `cleanup` (ratelimit.go lines 82–101): evict stale counters, then drop
any session whose tool map is left empty (`len(toolCounters) == 0`). -/
def cleanup (now : Int) (rc : RequestCounts) : RequestCounts :=
  (rc.map (fun p => (p.1, cleanupTC now p.2))).filter (fun p => !p.2.isEmpty)

/-- `Stop` (ratelimit.go lines 104–108): `if rl.cleanupTicker != nil {
rl.cleanupTicker.Stop() }`.  The Go function returns nothing; the `Option
String` component models its (absent) error return and is therefore always
`none`.  `time.Ticker.Stop` is idempotent and never panics. -/
def RateLimiter.Stop (rl : RateLimiter) : RateLimiter × Option String :=
  match rl.cleanupTicker with
  | some _ => ({ rl with cleanupTicker := some false }, none)
  | none => (rl, none)

/-- Request context, as seen by `getSessionID`: the value stored under the
custom `sessionIDKey{}` (if it is a string), and the session returned by
`server.ClientSessionFromContext` (modelled by its `SessionID()` string). -/
structure Ctx where
  sessionIDValue : Option String
  clientSession : Option String
deriving DecidableEq

/-- `getSessionID` (ratelimit.go lines 119–133): custom context key first
(used only when a non-empty string), then the server session, then the
fallback `"tool:" + toolName`. -/
def getSessionID (ctx : Ctx) (toolName : String) : String :=
  match ctx.sessionIDValue with
  | some sessionID =>
    if sessionID ≠ "" then sessionID
    else
      match ctx.clientSession with
      | some sid => sid
      | none => "tool:" ++ toolName
  | none =>
    match ctx.clientSession with
    | some sid => sid
    | none => "tool:" ++ toolName

/-- `getCounter` (ratelimit.go lines 136–154): get or create the counter
for `(sessionID, tool)`; a fresh counter starts at `count = 0`,
`windowStart = now` (the code calls `time.Now()` there).  Returns the
counter and the possibly-extended store. -/
def getCounter (rc : RequestCounts) (sessionID tool : String) (now : Int) :
    WindowCounter × RequestCounts :=
  let tc := (lookupKV rc sessionID).getD []
  match lookupKV tc tool with
  | some c => (c, rc)
  | none =>
    let c : WindowCounter := { count := 0, windowStart := now }
    (c, setKV rc sessionID (setKV tc tool c))

/-- `getLimit` (ratelimit.go lines 157–165): per-tool override if present,
else the limiter's default.  Total, no error path. -/
def RateLimiter.getLimit (rl : RateLimiter) (tool : String) : Int :=
  match lookupKV rl.limits tool with
  | some limit => limit
  | none => rl.defaultLimit

/-- Two-level lookup in the counter store. -/
def lookup2 (rc : RequestCounts) (s t : String) : Option WindowCounter :=
  match lookupKV rc s with
  | some tc => lookupKV tc t
  | none => none

/-- Write the counter for `(s, t)` back into the store (the effect of the
Go code's mutation through the `*windowCounter` pointer). -/
def setCounter (rc : RequestCounts) (s t : String) (c : WindowCounter) :
    RequestCounts :=
  setKV rc s (setKV ((lookupKV rc s).getD []) t c)

/-- Outcome of one admission check. -/
inductive CheckOutcome where
  | Allow : CheckOutcome
  | Deny : Int → CheckOutcome
deriving DecidableEq

/-- The admission logic of `Middleware` (ratelimit.go lines 177–205),
acting on a counter store: fetch/create the counter, reset the window if
`now - windowStart ≥ windowSize`, compare against the tool's limit —
deny with `retryAfter = windowSize - (now - windowStart)` if
`count ≥ limit`, else increment and allow.  All mutations of the counter
(reset, increment) are persisted in the returned store, as the Go code
mutates through the pointer. -/
def admissionStep (ws : Int) (rl : RateLimiter) (rc : RequestCounts)
    (sessionID tool : String) (now : Int) : CheckOutcome × RequestCounts :=
  let r := getCounter rc sessionID tool now
  let counter := r.1
  let counter1 :=
    if now - counter.windowStart ≥ ws then
      { count := 0, windowStart := now : WindowCounter }
    else counter
  let limit := rl.getLimit tool
  if counter1.count ≥ limit then
    (CheckOutcome.Deny (ws - (now - counter1.windowStart)),
      setCounter r.2 sessionID tool counter1)
  else
    (CheckOutcome.Allow,
      setCounter r.2 sessionID tool
        { counter1 with count := counter1.count + 1 })

/-- Run a sequence of admission checks for one `(session, tool)` pair at
the given times, returning the outcomes in order. -/
def runChecks (ps : PkgState) (rl : RateLimiter) (rc : RequestCounts)
    (s t : String) : List Int → List CheckOutcome
  | [] => []
  | now :: rest =>
    let step := admissionStep ps.windowSize rl rc s t now
    step.1 :: runChecks ps rl step.2 s t rest

/-- Go's `%.1f` rendering of a duration's `Seconds()`, for durations that
are a whole number of tenths of a second (at which granularity it is
exact). -/
def fmtSeconds1 (tenths : Int) : String :=
  (if tenths < 0 then "-" else "")
    ++ toString (tenths.natAbs / 10) ++ "." ++ toString (tenths.natAbs % 10)

/-- `mcp.CallToolResult`, restricted to what the middleware produces: the
text contents and the `IsError` flag. -/
structure CallToolResult where
  content : List String
  isError : Bool
deriving DecidableEq

/-- `mcp.NewToolResultError`: a result with `IsError = true` and a single
text content. -/
def NewToolResultError (text : String) : CallToolResult :=
  { content := [text], isError := true }

/-- `server.ToolHandlerFunc`: `(ctx, request) → (result, error)`; the
request is represented by its tool name, the error by `Option String`. -/
abbrev ToolHandlerFunc := Ctx → String → CallToolResult × Option String

/-- The handler returned by `Middleware` (ratelimit.go lines 168–208):
resolve the session, run the admission check; on deny return
`mcp.NewToolResultError(fmt.Sprintf("Rate limit exceeded for tool '%s'.
Try again in %.1f seconds.", tool, timeToNextWindow.Seconds()))` with a
`nil` error, without calling `next`; on allow call `next`.  Also returns
the updated limiter (the counter-store mutation).  The Go code reads the
clock twice in one call (counter creation and `now`); both reads are
modelled by the single instant `now`. -/
def middlewareHandle (ps : PkgState) (rl : RateLimiter)
    (next : ToolHandlerFunc) (ctx : Ctx) (toolName : String) (now : Int) :
    (CallToolResult × Option String) × RateLimiter :=
  let tool := toolName
  let sessionID := getSessionID ctx tool
  let step := admissionStep ps.windowSize rl rl.requestCounts sessionID tool now
  match step.1 with
  | CheckOutcome.Deny retryAfter =>
    ((NewToolResultError
        ("Rate limit exceeded for tool '" ++ tool ++ "'. Try again in "
          ++ fmtSeconds1 retryAfter ++ " seconds."), none),
      { rl with requestCounts := step.2 })
  | CheckOutcome.Allow =>
    (next ctx toolName, { rl with requestCounts := step.2 })

/-! ### Association-list lemmas -/

theorem lookupKV_setKV_self {α : Type} (l : List (String × α)) (k : String) (v : α) :
    lookupKV (setKV l k v) k = some v := by
  induction l with
  | nil => simp [setKV, lookupKV]
  | cons hd tl ih =>
    obtain ⟨k1, v1⟩ := hd
    by_cases h : k1 = k
    · simp [setKV, h, lookupKV]
    · simp only [setKV, if_neg h, lookupKV, ih]

theorem lookupKV_setKV_ne {α : Type} (l : List (String × α)) (k k2 : String) (v : α)
    (h : k2 ≠ k) : lookupKV (setKV l k v) k2 = lookupKV l k2 := by
  induction l with
  | nil => simp [setKV, lookupKV, Ne.symm h]
  | cons hd tl ih =>
    obtain ⟨k1, v1⟩ := hd
    by_cases h1 : k1 = k
    · subst h1
      simp [setKV, lookupKV, Ne.symm h]
    · simp only [setKV, if_neg h1, lookupKV, ih]

theorem lookupKV_map_values {α β : Type} (l : List (String × α)) (f : α → β)
    (k : String) :
    lookupKV (l.map (fun p => (p.1, f p.2))) k = (lookupKV l k).map f := by
  induction l with
  | nil => simp [lookupKV]
  | cons hd tl ih =>
    obtain ⟨k1, v1⟩ := hd
    by_cases h : k1 = k
    · simp [lookupKV, h]
    · simp [lookupKV, h, ih]

theorem lookupKV_eq_none_of_not_mem {α : Type} (l : List (String × α)) (k : String)
    (h : k ∉ l.map Prod.fst) : lookupKV l k = none := by
  induction l with
  | nil => rfl
  | cons hd tl ih =>
    obtain ⟨k1, v1⟩ := hd
    simp only [List.map_cons, List.mem_cons, not_or] at h
    simp [lookupKV, Ne.symm h.1, ih h.2]

theorem lookupKV_mem {α : Type} (l : List (String × α)) (k : String) (v : α)
    (h : lookupKV l k = some v) : (k, v) ∈ l := by
  induction l with
  | nil => simp [lookupKV] at h
  | cons hd tl ih =>
    obtain ⟨k1, v1⟩ := hd
    by_cases h1 : k1 = k
    · subst h1
      simp [lookupKV] at h
      subst h
      exact List.mem_cons_self _ _
    · simp only [lookupKV, if_neg h1] at h
      exact List.mem_cons_of_mem _ (ih h)

theorem lookupKV_filter {α : Type} (l : List (String × α)) (p : String × α → Bool)
    (k : String) (h : NodupKeys l) :
    lookupKV (l.filter p) k
      = Option.filter (fun v => p (k, v)) (lookupKV l k) := by
  induction l with
  | nil => simp [lookupKV]
  | cons hd tl ih =>
    obtain ⟨k1, v1⟩ := hd
    have h0 : k1 ∉ tl.map Prod.fst ∧ NodupKeys tl := by
      simpa [NodupKeys, List.nodup_cons] using h
    by_cases hkk : k1 = k
    · subst hkk
      by_cases hp : p (k1, v1) = true
      · simp [List.filter_cons, hp, lookupKV, Option.filter]
      · have hsub : k1 ∉ (tl.filter p).map Prod.fst := by
          intro hmem
          obtain ⟨q, hq, hq1⟩ := List.mem_map.mp hmem
          exact h0.1 (List.mem_map.mpr ⟨q, List.mem_of_mem_filter hq, hq1⟩)
        simp [List.filter_cons, hp, lookupKV,
          lookupKV_eq_none_of_not_mem _ _ hsub, Option.filter]
    · by_cases hp : p (k1, v1) = true
      · simp [List.filter_cons, hp, lookupKV, hkk, ih h0.2]
      · simp [List.filter_cons, hp, lookupKV, hkk, ih h0.2]

/-! ### Store lemmas -/

theorem getCounter_existing (rc : RequestCounts) (s t : String) (now : Int)
    (cc : WindowCounter) (h : lookup2 rc s t = some cc) :
    getCounter rc s t now = (cc, rc) := by
  unfold lookup2 at h
  cases hs : lookupKV rc s with
  | none => simp [hs] at h
  | some tc =>
    simp only [hs] at h
    simp [getCounter, hs, h]

theorem lookup2_setCounter_self (rc : RequestCounts) (s t : String)
    (c : WindowCounter) :
    lookup2 (setCounter rc s t c) s t = some c := by
  simp [lookup2, setCounter, lookupKV_setKV_self]

theorem lookup2_setCounter_ne (rc : RequestCounts) (s t s2 t2 : String)
    (c : WindowCounter) (h : (s2, t2) ≠ (s, t)) :
    lookup2 (setCounter rc s t c) s2 t2 = lookup2 rc s2 t2 := by
  by_cases hs : s2 = s
  · subst hs
    have ht : t2 ≠ t := by
      intro hh
      exact h (by rw [hh])
    simp only [lookup2, setCounter, lookupKV_setKV_self,
      lookupKV_setKV_ne _ _ _ _ ht]
    cases hv : lookupKV rc s2 with
    | none => simp [lookupKV]
    | some tc => simp
  · simp only [lookup2, setCounter, lookupKV_setKV_ne _ _ _ _ hs]

theorem lookup2_getCounter_frame (rc : RequestCounts) (s t s2 t2 : String)
    (now : Int) (h : (s2, t2) ≠ (s, t)) :
    lookup2 (getCounter rc s t now).2 s2 t2 = lookup2 rc s2 t2 := by
  simp only [getCounter]
  cases hl : lookupKV ((lookupKV rc s).getD []) t with
  | some c => simp
  | none =>
    simp only []
    exact lookup2_setCounter_ne rc s t s2 t2 _ h

theorem lookup2_getCounter_self (rc : RequestCounts) (s t : String) (now : Int) :
    lookup2 (getCounter rc s t now).2 s t = some (getCounter rc s t now).1 := by
  simp only [getCounter]
  cases hl : lookupKV ((lookupKV rc s).getD []) t with
  | some c =>
    simp only [lookup2]
    cases hs : lookupKV rc s with
    | none => rw [hs] at hl; simp [lookupKV] at hl
    | some tc =>
      rw [hs] at hl
      simpa using hl
  | none =>
    exact lookup2_setCounter_self rc s t _

/-! ### Admission-step lemmas -/

theorem admissionStep_existing (ws : Int) (rl : RateLimiter) (rc : RequestCounts)
    (s t : String) (now c w0 : Int)
    (hc : lookup2 rc s t = some ⟨c, w0⟩) (hwin : ¬ now - w0 ≥ ws) :
    admissionStep ws rl rc s t now
      = if c ≥ rl.getLimit t
        then (CheckOutcome.Deny (ws - (now - w0)), setCounter rc s t ⟨c, w0⟩)
        else (CheckOutcome.Allow, setCounter rc s t ⟨c + 1, w0⟩) := by
  simp only [admissionStep, getCounter_existing rc s t now ⟨c, w0⟩ hc]
  simp only [if_neg hwin]

theorem admissionStep_store (ws : Int) (rl : RateLimiter) (rc : RequestCounts)
    (s t : String) (now : Int) :
    ∃ c1, (admissionStep ws rl rc s t now).2
      = setCounter (getCounter rc s t now).2 s t c1 := by
  simp only [admissionStep]
  by_cases h1 : now - (getCounter rc s t now).1.windowStart ≥ ws
  · simp only [if_pos h1]
    by_cases h2 : (0 : Int) ≥ rl.getLimit t
    · refine ⟨{ count := 0, windowStart := now }, ?_⟩
      simp [if_pos h2]
    · refine ⟨{ count := 1, windowStart := now }, ?_⟩
      simp [if_neg h2]
  · simp only [if_neg h1]
    by_cases h2 : (getCounter rc s t now).1.count ≥ rl.getLimit t
    · refine ⟨(getCounter rc s t now).1, ?_⟩
      simp [if_pos h2]
    · refine ⟨WindowCounter.mk ((getCounter rc s t now).1.count + 1)
        ((getCounter rc s t now).1.windowStart), ?_⟩
      simp [if_neg h2]

theorem runChecks_length (ps : PkgState) (rl : RateLimiter) (s t : String) :
    ∀ (ts : List Int) (rc : RequestCounts),
      (runChecks ps rl rc s t ts).length = ts.length := by
  intro ts
  induction ts with
  | nil => intro rc; rfl
  | cons now rest ih => intro rc; simp [runChecks, ih]

/-- Invariant run of `runChecks` for one pair whose window never resets:
starting from count `c`, the `i`-th outcome is Allow while `c + i < Q` and
Deny with `retryAfter = windowSize - (now_i - w0)` afterwards. -/
theorem runChecks_get (ps : PkgState) (rl : RateLimiter) (s t : String)
    (w0 Q : Int) (hQ : rl.getLimit t = Q) :
    ∀ (ts : List Int) (rc : RequestCounts) (c : Int),
      lookup2 rc s t = some ⟨c, w0⟩ →
      (∀ x ∈ ts, w0 ≤ x ∧ x < w0 + ps.windowSize) →
      ∀ (i : Nat) (x : Int), ts.get? i = some x →
        (runChecks ps rl rc s t ts).get? i
          = some (if c + i < Q then CheckOutcome.Allow
                  else CheckOutcome.Deny (ps.windowSize - (x - w0))) := by
  intro ts
  induction ts with
  | nil =>
    intro rc c hc hmem i x hx
    simp at hx
  | cons now rest ih =>
    intro rc c hc hmem i x hx
    have hnow : w0 ≤ now ∧ now < w0 + ps.windowSize := hmem now (by simp)
    have hwin : ¬ now - w0 ≥ ps.windowSize := by omega
    have hstep := admissionStep_existing ps.windowSize rl rc s t now c w0 hc hwin
    rw [hQ] at hstep
    have hmem2 : ∀ x ∈ rest, w0 ≤ x ∧ x < w0 + ps.windowSize :=
      fun y hy => hmem y (by simp [hy])
    cases i with
    | zero =>
      have hxe : x = now := by simpa using hx.symm
      subst hxe
      by_cases hcq : Q ≤ c
      · simp only [runChecks, hstep, if_pos (show c ≥ Q from hcq)]
        simp
        rw [if_neg (show ¬ c < Q by omega)]
      · simp only [runChecks, hstep, if_neg (show ¬ c ≥ Q from hcq)]
        simp
        rw [if_pos (show c < Q by omega)]
    | succ i =>
      have hx2 : rest.get? i = some x := by simpa using hx
      by_cases hcq : Q ≤ c
      · have hc2 : lookup2 (admissionStep ps.windowSize rl rc s t now).2 s t
            = some ⟨c, w0⟩ := by
          rw [hstep, if_pos (show c ≥ Q from hcq)]
          exact lookup2_setCounter_self rc s t _
        have hrec := ih (admissionStep ps.windowSize rl rc s t now).2 c hc2
          hmem2 i x hx2
        simp only [runChecks, List.get?_cons_succ]
        rw [hrec]
        have h1 : ¬ (c + (i : Int) < Q) := by omega
        have h2 : ¬ (c + ((i + 1 : Nat) : Int) < Q) := by push_cast; omega
        rw [if_neg h1, if_neg h2]
      · have hc2 : lookup2 (admissionStep ps.windowSize rl rc s t now).2 s t
            = some ⟨c + 1, w0⟩ := by
          rw [hstep, if_neg (show ¬ c ≥ Q from hcq)]
          exact lookup2_setCounter_self rc s t _
        have hrec := ih (admissionStep ps.windowSize rl rc s t now).2 (c + 1) hc2
          hmem2 i x hx2
        simp only [runChecks, List.get?_cons_succ]
        rw [hrec]
        by_cases h3 : c + ((i + 1 : Nat) : Int) < Q
        · rw [if_pos (show c + 1 + (i : Int) < Q by push_cast at h3 ⊢; omega),
            if_pos h3]
        · rw [if_neg (show ¬ c + 1 + (i : Int) < Q by push_cast at h3 ⊢; omega),
            if_neg h3]

/-- Claim C1: for a session `s` and tool `t` with applicable quota `Q ≥ 1`,
any sequence of admission checks all occurring within `windowSize` of the
window's start (so no reset intervenes) has exactly its first `Q` checks
return Allow, and every later check returns Deny with
`retryAfter = windowSize - (now - windowStart)`, strictly greater than `0`
and at most `windowSize`. -/
theorem window_correctness (ps : PkgState) (rl : RateLimiter) (rc : RequestCounts)
    (s t : String) (w0 Q : Int) (ts : List Int)
    (hQ : rl.getLimit t = Q) (hQ1 : 1 ≤ Q)
    (h0 : lookup2 rc s t = some ⟨0, w0⟩)
    (hts : ∀ x ∈ ts, w0 ≤ x ∧ x < w0 + ps.windowSize) :
    ∀ (i : Nat) (x : Int), ts.get? i = some x →
      (((i : Int) < Q →
          (runChecks ps rl rc s t ts).get? i = some CheckOutcome.Allow)
        ∧ (Q ≤ (i : Int) →
            (runChecks ps rl rc s t ts).get? i
              = some (CheckOutcome.Deny (ps.windowSize - (x - w0)))
            ∧ 0 < ps.windowSize - (x - w0)
            ∧ ps.windowSize - (x - w0) ≤ ps.windowSize)) := by
  intro i x hx
  have hmain := runChecks_get ps rl s t w0 Q hQ ts rc 0 h0 hts i x hx
  have hxmem : x ∈ ts := List.get?_mem hx
  have hxb := hts x hxmem
  constructor
  · intro hi
    rw [hmain, if_pos (by omega)]
  · intro hi
    refine ⟨?_, by omega, by omega⟩
    rw [hmain, if_neg (by omega)]

def rcW1 : RequestCounts := [("s", [("t", ⟨0, 0⟩)])]

def rlW1 : RateLimiter :=
  { limits := [], defaultLimit := 2, requestCounts := rcW1,
    cleanupTicker := some true }

/-- Concrete instance of `window_correctness`: quota 2, four in-window
checks; the third check (index 2) is denied with `retryAfter = 600 - 2`. -/
theorem window_correctness_witness :
    rlW1.getLimit "t" = 2 ∧ (1 : Int) ≤ 2
    ∧ lookup2 rcW1 "s" "t" = some ⟨0, 0⟩
    ∧ (∀ x ∈ [(0 : Int), 1, 2, 3], (0 : Int) ≤ x ∧ x < 0 + pkg0.windowSize)
    ∧ (runChecks pkg0 rlW1 rcW1 "s" "t" [0, 1, 2, 3]).get? 2
        = some (CheckOutcome.Deny (pkg0.windowSize - (2 - 0))) :=
  ⟨by decide, by norm_num, by decide, by decide,
    (((window_correctness pkg0 rlW1 rcW1 "s" "t" 0 2 [0, 1, 2, 3] (by decide)
      (by norm_num) (by decide) (by decide)) 2 2 (by rfl)).2 (by norm_num)).1⟩

/-- Claim C2: an admission check for `(s, t)` leaves every other pair's
window unchanged, and removes no entry from the counter store. -/
theorem admission_isolation_frame (ws : Int) (rl : RateLimiter)
    (rc : RequestCounts) (s t s2 t2 : String) (now : Int)
    (h : (s2, t2) ≠ (s, t)) :
    lookup2 (admissionStep ws rl rc s t now).2 s2 t2 = lookup2 rc s2 t2
    ∧ (∀ s3 t3, lookup2 rc s3 t3 ≠ none →
        lookup2 (admissionStep ws rl rc s t now).2 s3 t3 ≠ none) := by
  obtain ⟨c1, hst⟩ := admissionStep_store ws rl rc s t now
  constructor
  · rw [hst, lookup2_setCounter_ne _ _ _ _ _ _ h,
      lookup2_getCounter_frame _ _ _ _ _ _ h]
  · intro s3 t3 h3
    by_cases he : (s3, t3) = (s, t)
    · rw [Prod.mk.injEq] at he
      obtain ⟨he1, he2⟩ := he
      subst he1; subst he2
      rw [hst, lookup2_setCounter_self]
      simp
    · rw [hst, lookup2_setCounter_ne _ _ _ _ _ _ he,
        lookup2_getCounter_frame _ _ _ _ _ _ he]
      exact h3

def rcW2 : RequestCounts := [("a", [("x", ⟨1, 0⟩)]), ("b", [("x", ⟨1, 0⟩)])]

def rlW2 : RateLimiter :=
  { limits := [], defaultLimit := 2, requestCounts := rcW2,
    cleanupTicker := some true }

/-- Concrete instance of `admission_isolation_frame`: a check for
`("a","x")` leaves `("b","x")`'s window untouched. -/
theorem admission_isolation_frame_witness :
    ((("b", "x") : String × String) ≠ ("a", "x"))
    ∧ lookup2 (admissionStep 600 rlW2 rcW2 "a" "x" 5).2 "b" "x"
        = lookup2 rcW2 "b" "x" :=
  ⟨by decide,
    (admission_isolation_frame 600 rlW2 rcW2 "a" "x" "b" "x" 5 (by decide)).1⟩

/-- Reset step: when the window has expired (`now - windowStart ≥ ws`) and
the limit is positive, the check resets the window and admits, leaving the
counter at `⟨1, now⟩`. -/
theorem admissionStep_reset (ws : Int) (rl : RateLimiter) (rc : RequestCounts)
    (s t : String) (now c w0 : Int)
    (hc : lookup2 rc s t = some ⟨c, w0⟩) (hexp : now - w0 ≥ ws)
    (hpos : ¬ (0 : Int) ≥ rl.getLimit t) :
    admissionStep ws rl rc s t now
      = (CheckOutcome.Allow, setCounter rc s t ⟨1, now⟩) := by
  simp only [admissionStep, getCounter_existing rc s t now ⟨c, w0⟩ hc]
  rw [if_pos hexp]
  simp [hpos]

/-- Claim C3: if a check occurs at `now` with `now - windowStart ≥
windowSize`, the window is reset before the quota comparison, so the check
returns Allow whenever the applicable quota is at least 1 — even if the
previous window's quota was exhausted (arbitrary prior count `c`). -/
theorem window_reset_admits (ws : Int) (rl : RateLimiter) (rc : RequestCounts)
    (s t : String) (now c w0 Q : Int)
    (hc : lookup2 rc s t = some ⟨c, w0⟩)
    (hexp : now - w0 ≥ ws)
    (hQ : rl.getLimit t = Q) (hQ1 : 1 ≤ Q) :
    (admissionStep ws rl rc s t now).1 = CheckOutcome.Allow
    ∧ lookup2 (admissionStep ws rl rc s t now).2 s t = some ⟨1, now⟩ := by
  have hpos : ¬ (0 : Int) ≥ rl.getLimit t := by rw [hQ]; omega
  have hstep := admissionStep_reset ws rl rc s t now c w0 hc hexp hpos
  rw [hstep]
  exact ⟨rfl, lookup2_setCounter_self rc s t _⟩

def rcW3 : RequestCounts := [("s", [("t", ⟨7, 0⟩)])]

def rlW3 : RateLimiter :=
  { limits := [], defaultLimit := 2, requestCounts := rcW3,
    cleanupTicker := some true }

/-- Concrete instance of `window_reset_admits`: quota 2 exhausted at count
7, but after the window expires the next check is admitted. -/
theorem window_reset_admits_witness :
    lookup2 rcW3 "s" "t" = some ⟨7, 0⟩
    ∧ ((650 : Int) - 0 ≥ 600)
    ∧ rlW3.getLimit "t" = 2 ∧ (1 : Int) ≤ 2
    ∧ (admissionStep 600 rlW3 rcW3 "s" "t" 650).1 = CheckOutcome.Allow :=
  ⟨by decide, by norm_num, by decide, by norm_num,
    (window_reset_admits 600 rlW3 rcW3 "s" "t" 650 7 0 2 (by decide)
      (by norm_num) (by decide) (by norm_num)).1⟩

/-- Well-formed counter store: unique session keys, and unique tool keys in
every session sub-map (the Go map invariant). -/
def StoreWF (rc : RequestCounts) : Prop :=
  NodupKeys rc ∧ ∀ p ∈ rc, NodupKeys p.2

instance (rc : RequestCounts) : Decidable (StoreWF rc) := by
  unfold StoreWF; infer_instance

def rlC4 : RateLimiter := (NewRateLimiter [] pkg0).1

def rcC4a : RequestCounts :=
  (admissionStep pkg0.windowSize rlC4 [] "s" "t" 0).2

def rcC4b : RequestCounts :=
  (admissionStep pkg0.windowSize rlC4 rcC4a "s" "t" 590).2

/-- Claim C4 counterexample: the window for `("s","t")` is created at time
0 and accessed again (admission check, Allow) at time 590; `cleanup` runs
at time 6590, so the last access lies within the idle threshold
(6590 − 590 = 6000 ≤ cleanupInterval), yet the window is removed — the
code keys eviction on `windowStart` (here 0, older than the threshold),
and no `lastSeen` field exists.  This refutes "every window accessed
within the threshold survives". -/
theorem cleanup_lastSeen_counterexample :
    (admissionStep pkg0.windowSize rlC4 rcC4a "s" "t" 590).1 = CheckOutcome.Allow
    ∧ lookup2 rcC4b "s" "t" = some ⟨2, 0⟩
    ∧ ((6590 : Int) - 590 ≤ cleanupInterval)
    ∧ lookup2 (cleanup 6590 rcC4b) "s" "t" = none :=
  ⟨by decide, by decide, by decide, by decide⟩

/-- Claim C4 (amended): after `cleanup` runs at time `now` on a
well-formed store, a window survives exactly when
`now - windowStart ≤ cleanupInterval` — eviction is keyed on `windowStart`
(there is no `lastSeen` field), so a window is removed even if accessed
within the threshold whenever its `windowStart` is older than the
threshold; and every session sub-map left empty is removed. -/
theorem cleanup_windowStart_char (now : Int) (rc : RequestCounts)
    (h : StoreWF rc) :
    (∀ s t, lookup2 (cleanup now rc) s t
        = Option.filter
            (fun c => !(decide (now - c.windowStart > cleanupInterval)))
            (lookup2 rc s t))
    ∧ (∀ s tc, lookupKV (cleanup now rc) s = some tc → tc ≠ []) := by
  have hnd2 : NodupKeys (rc.map (fun p => (p.1, cleanupTC now p.2))) := by
    have hmapfst : List.map Prod.fst (rc.map (fun p => (p.1, cleanupTC now p.2)))
        = List.map Prod.fst rc := by
      rw [List.map_map]; rfl
    unfold NodupKeys
    rw [hmapfst]
    exact h.1
  constructor
  · intro s t
    cases hs : lookupKV rc s with
    | none =>
      have hsession : lookupKV (cleanup now rc) s = none := by
        unfold cleanup
        rw [lookupKV_filter _ _ _ hnd2, lookupKV_map_values rc (cleanupTC now) s,
          hs]
        rfl
      simp [lookup2, hsession, hs, Option.filter]
    | some tc =>
      have hndtc : NodupKeys tc := h.2 (s, tc) (lookupKV_mem rc s tc hs)
      by_cases hemp : cleanupTC now tc = []
      · have hsession : lookupKV (cleanup now rc) s = none := by
          unfold cleanup
          rw [lookupKV_filter _ _ _ hnd2,
            lookupKV_map_values rc (cleanupTC now) s, hs]
          simp [Option.filter, hemp]
        cases hct : lookupKV tc t with
        | none => simp [lookup2, hsession, hs, hct, Option.filter]
        | some c =>
          have hmemc := lookupKV_mem tc t c hct
          have hdrop :
              ¬ ((!(decide (now - c.windowStart > cleanupInterval))) = true) := by
            intro hkeep
            have hmem2 : (t, c) ∈ cleanupTC now tc :=
              List.mem_filter.mpr ⟨hmemc, hkeep⟩
            rw [hemp] at hmem2
            simp at hmem2
          simp [lookup2, hsession, hs, hct, Option.filter, hdrop]
      · have hempB : (cleanupTC now tc).isEmpty = false := by
          cases hcc : cleanupTC now tc with
          | nil => exact absurd hcc hemp
          | cons a l => rfl
        have hsession : lookupKV (cleanup now rc) s = some (cleanupTC now tc) := by
          unfold cleanup
          rw [lookupKV_filter _ _ _ hnd2,
            lookupKV_map_values rc (cleanupTC now) s, hs]
          simp [Option.filter, hempB]
        have hlk := lookupKV_filter tc
          (fun p => !(decide (now - p.2.windowStart > cleanupInterval))) t hndtc
        simp only [lookup2, hsession, hs]
        exact hlk
  · intro s tc hstc
    intro hnil
    subst hnil
    have hmem : (s, ([] : ToolCounters))
        ∈ (rc.map (fun p => (p.1, cleanupTC now p.2))).filter
            (fun p => !p.2.isEmpty) :=
      lookupKV_mem _ _ _ hstc
    have hq := (List.mem_filter.mp hmem).2
    simp at hq

def rcW4 : RequestCounts := [("s", [("t1", ⟨1, 0⟩), ("t2", ⟨1, 6400⟩)])]

/-- Concrete instance of `cleanup_windowStart_char`: at time 6500, the
counter with `windowStart = 0` is evicted and the one with
`windowStart = 6400` survives. -/
theorem cleanup_windowStart_char_witness :
    StoreWF rcW4
    ∧ lookup2 (cleanup 6500 rcW4) "s" "t1"
        = Option.filter
            (fun c => !(decide ((6500 : Int) - c.windowStart > cleanupInterval)))
            (lookup2 rcW4 "s" "t1") :=
  ⟨by decide, (cleanup_windowStart_char 6500 rcW4 (by decide)).1 "s" "t1"⟩

/-- Claim C5 counterexample: construction with a non-positive per-tool
override (0) or default (−5) succeeds — `NewRateLimiter` has no error
path and no validation — and the non-positive value is stored and used
as-is, so the claim "construction fails with an error surfaced to the
caller" is false. -/
theorem construction_no_validation_counterexample :
    lookupKV ((NewRateLimiter [WithToolLimit "t" 0] pkg0).1).limits "t" = some 0
    ∧ ((NewRateLimiter [WithToolLimit "t" 0] pkg0).1).getLimit "t" = 0
    ∧ ((NewRateLimiter [WithDefaultLimit (-5)] pkg0).1).defaultLimit = -5 :=
  ⟨by decide, by decide, by decide⟩

/-- Claim C5 (amended): construction never fails; a non-positive default
or override is accepted and stored unchanged (neither rejected nor
clamped), so a successfully constructed limiter may carry non-positive
quotas. -/
theorem construction_accepts_nonpositive (t1 : String) (v : Int)
    (ps : PkgState) (hv : v ≤ 0) :
    ((NewRateLimiter [WithToolLimit t1 v] ps).1).getLimit t1 = v
    ∧ ((NewRateLimiter [WithDefaultLimit v] ps).1).defaultLimit = v := by
  constructor
  · simp [NewRateLimiter, WithToolLimit, RateLimiter.getLimit,
      lookupKV_setKV_self]
  · rfl

/-- Concrete instance of `construction_accepts_nonpositive` at quota 0. -/
theorem construction_accepts_nonpositive_witness :
    ((0 : Int) ≤ 0)
    ∧ ((NewRateLimiter [WithToolLimit "x" 0] pkg0).1).getLimit "x" = 0 :=
  ⟨by norm_num, (construction_accepts_nonpositive "x" 0 pkg0 (by norm_num)).1⟩

def rlW6 : RateLimiter := (NewRateLimiter [] pkg0).1

/-- Claim C6 counterexample: `Stop` has no error return at all (its Go
signature returns nothing, modelled by the always-`none` error component);
calling it a second time reports no error and leaves the state exactly as
after the first call — refuting "yields a reported, recoverable error on
the second call". -/
theorem double_stop_counterexample :
    ((rlW6.Stop).1.Stop).2 = none
    ∧ ((rlW6.Stop).1.Stop).1 = (rlW6.Stop).1 :=
  ⟨by decide, by decide⟩

/-- Claim C6 (amended): `Stop` is idempotent and unchecked — it returns no
error on any call (there is no error channel), a second call is a silent
no-op, and state is never corrupted; it never panics (`time.Ticker.Stop`
is documented safe to call repeatedly). -/
theorem stop_idempotent_no_error (rl : RateLimiter) :
    (rl.Stop).2 = none
    ∧ ((rl.Stop).1.Stop).2 = none
    ∧ ((rl.Stop).1.Stop).1 = (rl.Stop).1 := by
  cases h : rl.cleanupTicker with
  | some b => simp [RateLimiter.Stop, h]
  | none => simp [RateLimiter.Stop, h]

/-- Claim C7: when the admission check denies, the middleware does not
invoke the downstream handler (the result is the same for every `next`,
which does not occur in the right-hand side), returns a `nil` error, and
the single message is exactly
`Rate limit exceeded for tool '<tool>'. Try again in <N.N> seconds.` with
the retry hint rendered to one decimal place; the denial is a normal
result, never an error/fault. -/
theorem deny_message_shape (ps : PkgState) (rl : RateLimiter) (ctx : Ctx)
    (toolName : String) (now rA : Int) (next : ToolHandlerFunc)
    (h : (admissionStep ps.windowSize rl rl.requestCounts
          (getSessionID ctx toolName) toolName now).1 = CheckOutcome.Deny rA) :
    (middlewareHandle ps rl next ctx toolName now).1
      = (CallToolResult.mk
          ["Rate limit exceeded for tool '" ++ toolName ++ "'. Try again in "
            ++ fmtSeconds1 rA ++ " seconds."] true, none) := by
  simp only [middlewareHandle, h, NewToolResultError]

def rcW7 : RequestCounts := [("s", [("t", ⟨5, 0⟩)])]

def rlW7 : RateLimiter :=
  { limits := [], defaultLimit := 1, requestCounts := rcW7,
    cleanupTicker := some true }

def ctxW7 : Ctx := { sessionIDValue := some "s", clientSession := none }

def nextW7 : ToolHandlerFunc :=
  fun _ _ => ({ content := ["ok"], isError := false }, none)

/-- Concrete instance of `deny_message_shape`: limit 1 already exhausted,
deny at 50.0 seconds to the next window. -/
theorem deny_message_shape_witness :
    (admissionStep pkg0.windowSize rlW7 rlW7.requestCounts
        (getSessionID ctxW7 "t") "t" 100).1 = CheckOutcome.Deny 500
    ∧ (middlewareHandle pkg0 rlW7 nextW7 ctxW7 "t" 100).1
        = (CallToolResult.mk
            ["Rate limit exceeded for tool 't'. Try again in 50.0 seconds."]
            true, none) :=
  ⟨by decide, by
    rw [deny_message_shape pkg0 rlW7 ctxW7 "t" 100 500 nextW7 (by decide)]
    decide⟩

/-- Claim C8: when no caller session can be extracted from the context
(no non-empty custom value and no client session), the resolved identity
is the deterministic non-empty string `"tool:" ++ toolName` — the
reserved `tool:` prefix distinguishing it from real session identities —
so two sessionless calls for the same tool resolve to the same identity
(one shared quota bucket); resolution is total and never fails. -/
theorem session_fallback_identity (ctx1 ctx2 : Ctx) (t : String)
    (h1 : (ctx1.sessionIDValue = none ∨ ctx1.sessionIDValue = some "")
      ∧ ctx1.clientSession = none)
    (h2 : (ctx2.sessionIDValue = none ∨ ctx2.sessionIDValue = some "")
      ∧ ctx2.clientSession = none) :
    getSessionID ctx1 t = "tool:" ++ t
    ∧ getSessionID ctx1 t ≠ ""
    ∧ getSessionID ctx2 t = getSessionID ctx1 t := by
  have key : ∀ ctx : Ctx,
      (ctx.sessionIDValue = none ∨ ctx.sessionIDValue = some "")
        ∧ ctx.clientSession = none → getSessionID ctx t = "tool:" ++ t := by
    intro ctx hc
    obtain ⟨hv, hcs⟩ := hc
    cases hv with
    | inl hn => simp [getSessionID, hn, hcs]
    | inr he => simp [getSessionID, he, hcs]
  have k1 := key ctx1 h1
  have k2 := key ctx2 h2
  refine ⟨k1, ?_, by rw [k1, k2]⟩
  rw [k1]
  intro hcon
  have hlen := congrArg String.length hcon
  rw [String.length_append] at hlen
  have h5 : "tool:".length = 5 := rfl
  have h0 : "".length = 0 := rfl
  omega

def ctxW8a : Ctx := { sessionIDValue := none, clientSession := none }

def ctxW8b : Ctx := { sessionIDValue := some "", clientSession := none }

/-- Concrete instance of `session_fallback_identity`: two sessionless
contexts resolve to the same `tool:`-prefixed identity. -/
theorem session_fallback_identity_witness :
    ((ctxW8a.sessionIDValue = none ∨ ctxW8a.sessionIDValue = some "")
      ∧ ctxW8a.clientSession = none)
    ∧ ((ctxW8b.sessionIDValue = none ∨ ctxW8b.sessionIDValue = some "")
      ∧ ctxW8b.clientSession = none)
    ∧ getSessionID ctxW8a "get_resource" = "tool:" ++ "get_resource"
    ∧ getSessionID ctxW8b "get_resource" = getSessionID ctxW8a "get_resource" :=
  ⟨⟨Or.inl rfl, rfl⟩, ⟨Or.inr rfl, rfl⟩,
    (session_fallback_identity ctxW8a ctxW8b "get_resource"
      ⟨Or.inl rfl, rfl⟩ ⟨Or.inr rfl, rfl⟩).1,
    (session_fallback_identity ctxW8a ctxW8b "get_resource"
      ⟨Or.inl rfl, rfl⟩ ⟨Or.inr rfl, rfl⟩).2.2⟩

/-- Claim C9 counterexample: a limiter constructed with
`WithDefaultLimit 0` gives `getLimit "anytool" = 0`, which is not a
positive integer — refuting "always returns a valid positive integer"
(the lookup itself is total, but positivity is not guaranteed because
construction performs no validation). -/
theorem getLimit_nonpositive_counterexample :
    ((NewRateLimiter [WithDefaultLimit 0] pkg0).1).getLimit "anytool" = 0
    ∧ ¬ (0 < ((NewRateLimiter [WithDefaultLimit 0] pkg0).1).getLimit "anytool") :=
  ⟨by decide, by decide⟩

/-- Claim C9 (amended): for every tool name (any string), `getLimit`
returns the per-tool override when configured and the default otherwise;
it is total with no error path, and it returns a positive integer
provided every configured quota (default and overrides) is positive —
a precondition construction does not enforce. -/
theorem getLimit_override_default (rl : RateLimiter) (tool : String)
    (hd : 0 < rl.defaultLimit) (ho : ∀ p ∈ rl.limits, 0 < p.2) :
    0 < rl.getLimit tool
    ∧ (∀ l, lookupKV rl.limits tool = some l → rl.getLimit tool = l)
    ∧ (lookupKV rl.limits tool = none → rl.getLimit tool = rl.defaultLimit) := by
  refine ⟨?_, ?_, ?_⟩
  · unfold RateLimiter.getLimit
    cases hl : lookupKV rl.limits tool with
    | none => simpa using hd
    | some l =>
      have hpos := ho (tool, l) (lookupKV_mem _ _ _ hl)
      simpa using hpos
  · intro l hl
    unfold RateLimiter.getLimit
    rw [hl]
  · intro hl
    unfold RateLimiter.getLimit
    rw [hl]

def rlW9 : RateLimiter :=
  { limits := [("a", 2)], defaultLimit := 1, requestCounts := [],
    cleanupTicker := some true }

/-- Concrete instance of `getLimit_override_default`: all quotas positive,
so the looked-up quota is positive. -/
theorem getLimit_override_default_witness :
    (0 < rlW9.defaultLimit) ∧ (∀ p ∈ rlW9.limits, 0 < p.2)
    ∧ 0 < rlW9.getLimit "b" :=
  ⟨by decide, by decide,
    (getLimit_override_default rlW9 "b" (by decide) (by decide)).1⟩

/-- Claim C10: `WithTimeWindow d` ignores the limiter it is applied to and
mutates the package-level `windowSize` shared by every limiter: the
limiter is unchanged, the package variable becomes `d`, every limiter's
admission behaviour under the resulting package state uses window size
`d`, and constructing a new limiter with the package's other options
(`WithToolLimit`, `WithDefaultLimit`) leaves the package variable at `d` —
it does not restore the default. -/
theorem withTimeWindow_global_effect (d : Int) (rlA rlB : RateLimiter)
    (ps : PkgState) :
    (WithTimeWindow d (rlA, ps)).1 = rlA
    ∧ (WithTimeWindow d (rlA, ps)).2.windowSize = d
    ∧ (∀ rc s t now,
        admissionStep (WithTimeWindow d (rlA, ps)).2.windowSize rlB rc s t now
          = admissionStep d rlB rc s t now)
    ∧ (∀ (t1 : String) (v1 v2 : Int),
        (NewRateLimiter [WithToolLimit t1 v1, WithDefaultLimit v2]
            (WithTimeWindow d (rlA, ps)).2).2
          = { windowSize := d }) :=
  ⟨rfl, rfl, fun _ _ _ _ => rfl, fun _ _ _ => rfl⟩
